import Mathlib

/-!
# Todo–Calendar Synchronization Service: a shallow embedding

This file embeds the todo controller (`todoController.js`) and the calendar
controller helpers (`calenderController.js`) of the Selfish repository in
Lean 4, and proves (or refutes) the testable properties of the specification.

Modelling conventions:
* Database rows (Supabase `todos`, `calendar_tokens`) are Lean structures in
  snake_case, exactly mirroring the columns the code reads and writes.
  Timestamps and instants are `Nat` milliseconds since the Unix epoch, the
  representation `Date.getTime()` / `expiry_date` use; ISO-8601 strings of the
  source are represented by their instants (`epochMillisUTC` below converts a
  `Z`-suffixed calendar date to this representation, as `new Date(iso)` does).
* The primary store is modelled as an in-memory list of rows plus a fresh-id
  counter; primary-store operations succeed (the `if (error) throw error`
  branches of the source are DB-failure paths that every claim here leaves
  fixed).  The DB-managed `created_at` / `updated_at` columns, which no
  control flow depends on, are omitted.
* The external Google Calendar provider is an environment value: the outcome
  of `refreshAccessToken` (`RefreshEnv`) and of `events.insert/update/delete`
  (`GatewayEnv`).  Every invocation of a gateway helper is recorded in a
  `GCall` trace so that call-counting properties can be stated.
-/

namespace Selfish

/-- A row of the Supabase `calendar_tokens` table (snake_case, as stored). -/
structure TokenRow where
  access_token : Option String
  refresh_token : Option String
  expiry_date : Option Nat
deriving Repr, DecidableEq

/-- The camelCase token data `refreshTokenIfNeeded` returns to its callers. -/
structure TokenData where
  accessToken : Option String
  refreshToken : Option String
  expiryDate : Option Nat
deriving Repr, DecidableEq

/-- The credential object Google's `refreshAccessToken()` resolves with. -/
structure GoogleCredentials where
  access_token : Option String
  refresh_token : Option String
  expiry_date : Option Nat
deriving Repr, DecidableEq

/-- Environment of one `refreshTokenIfNeeded` run: the stored row for the
user, the current time, the provider's response to a refresh attempt
(`none` = the provider rejects / the call throws), and whether the Supabase
update persisting the refreshed token succeeds. -/
structure RefreshEnv where
  stored : Option TokenRow
  now : Nat
  refreshOutcome : Option GoogleCredentials
  persistOk : Bool
deriving Repr, DecidableEq

/-- `5 * 60 * 1000` — the expiry buffer of `refreshTokenIfNeeded`. -/
def expiryBufferMs : Nat := 5 * 60 * 1000

/-- Embedding of `refreshTokenIfNeeded` (calenderController.js).  Returns the
token data handed to the caller (`none` = "not connected / reconnect") and
the `calendar_tokens` row as stored after the call (so that persistence of a
refresh is observable).  The JS catch-all that converts any thrown error to
`null` is represented by the explicit `none` results. -/
def refreshTokenIfNeeded (env : RefreshEnv) : Option TokenData × Option TokenRow :=
  match env.stored with
  | none => (none, none)
  | some tokenData =>
    -- isExpired = tokenData.expiry_date && (tokenData.expiry_date <= now + expiryBuffer)
    let isExpired : Bool :=
      match tokenData.expiry_date with
      | none => false
      | some e => e ≤ env.now + expiryBufferMs
    if isExpired then
      match tokenData.refresh_token with
      | none => (none, some tokenData)
      | some _ =>
        match env.refreshOutcome with
        | none => (none, some tokenData)
        | some credentials =>
          let updated : TokenRow :=
            { access_token := credentials.access_token
              expiry_date := credentials.expiry_date
              refresh_token :=
                match credentials.refresh_token with
                | some r => some r
                | none => tokenData.refresh_token }
          if env.persistOk then
            (some { accessToken := updated.access_token
                    refreshToken := updated.refresh_token
                    expiryDate := updated.expiry_date }, some updated)
          else
            (none, some tokenData)
    else
      (some { accessToken := tokenData.access_token
              refreshToken := tokenData.refresh_token
              expiryDate := tokenData.expiry_date }, some tokenData)

/-- One recorded invocation of a Calendar Gateway helper. -/
inductive GCall where
  | createEv (title : String) (startMs endMs : Nat)
  | updateEv (eventId : String) (title : String) (startMs endMs : Nat)
  | deleteEv (eventId : String)
deriving Repr, DecidableEq

/-- Environment for gateway helper calls: the token-refresh environment plus
the outcomes of the remote `events.insert` (`some id` = created event id,
`none` = the call throws), `events.update` and `events.delete`. -/
structure GatewayEnv where
  refresh : RefreshEnv
  insertResult : Option String
  updateOk : Bool
  deleteOk : Bool
deriving Repr, DecidableEq

/-- The `{ success, eventId?, error? }` result shape of the gateway helpers
(the error message itself carries no control flow and is dropped). -/
structure CalResult where
  success : Bool
  eventId : Option String
deriving Repr, DecidableEq

/-- Embedding of `createCalendarEventHelper`: refresh the token; if no
credential, fail with `success:false`; otherwise perform the remote insert,
failing softly if it throws.  The helper invocation is recorded in the
trace. -/
def createCalendarEventHelper (env : GatewayEnv) (title : String)
    (startMs endMs : Nat) : CalResult × List GCall :=
  let call := [GCall.createEv title startMs endMs]
  match (refreshTokenIfNeeded env.refresh).fst with
  | none => ({ success := false, eventId := none }, call)
  | some _ =>
    match env.insertResult with
    | some id => ({ success := true, eventId := some id }, call)
    | none => ({ success := false, eventId := none }, call)

/-- Embedding of `updateCalendarEventHelper`. -/
def updateCalendarEventHelper (env : GatewayEnv) (eventId title : String)
    (startMs endMs : Nat) : CalResult × List GCall :=
  let call := [GCall.updateEv eventId title startMs endMs]
  match (refreshTokenIfNeeded env.refresh).fst with
  | none => ({ success := false, eventId := none }, call)
  | some _ => ({ success := env.updateOk, eventId := none }, call)

/-- Embedding of `deleteCalendarEventHelper`. -/
def deleteCalendarEventHelper (env : GatewayEnv) (eventId : String) :
    CalResult × List GCall :=
  let call := [GCall.deleteEv eventId]
  match (refreshTokenIfNeeded env.refresh).fst with
  | none => ({ success := false, eventId := none }, call)
  | some _ => ({ success := env.deleteOk, eventId := none }, call)

/-- A row of the Supabase `todos` table (snake_case, as stored).
`created_at`/`updated_at`, which are DB-managed and never read by control
flow, are omitted. -/
structure Todo where
  id : Nat
  user_id : Nat
  title : String
  description : Option String
  priority : String
  status : String
  due_date : Option Nat
  calendar_event_id : Option String
  completed_at : Option Nat
deriving Repr, DecidableEq

/-- The primary store: the `todos` rows plus the next fresh row id. -/
structure Store where
  todos : List Todo
  nextId : Nat
deriving Repr, DecidableEq

/-- The camelCase todo object returned to the client. -/
structure TodoOut where
  id : Nat
  userId : Nat
  title : String
  description : Option String
  priority : String
  status : String
  dueDate : Option Nat
  calendarEventId : Option String
  completedAt : Option Nat
deriving Repr, DecidableEq

/-- The snake_case → camelCase response mapping each handler performs.
`calendarEventId` is passed separately because the handlers thread a local
`calendarEventId` variable through the sync block. -/
def formatTodo (t : Todo) (calendarEventId : Option String) : TodoOut :=
  { id := t.id, userId := t.user_id, title := t.title
    description := t.description, priority := t.priority, status := t.status
    dueDate := t.due_date, calendarEventId := calendarEventId
    completedAt := t.completed_at }

/-- Response bodies of the handlers (error messages are kept verbatim where
the code has them; success payloads carry the formatted data). -/
inductive RespBody where
  | todo (t : TodoOut)
  | todos (ts : List TodoOut)
  | message (m : String)
  | fail (m : String)
  | event (eventId : String)
deriving Repr, DecidableEq

/-- An HTTP response: status code and body. -/
structure Resp where
  status : Nat
  body : RespBody
deriving Repr, DecidableEq

/-- `supabase.from("todos").update(f).eq("id", id)`: apply `f` to every row
whose id matches. -/
def updateTodoRow (todos : List Todo) (id : Nat) (f : Todo → Todo) : List Todo :=
  todos.map (fun t => if t.id = id then f t else t)

/-- `value || default` on an optional string field, as JS evaluates it
(an empty string is falsy and also yields the default). -/
def jsOrStr (v : Option String) (d : String) : String :=
  match v with
  | some s => if s = "" then d else s
  | none => d

/-- JS `String.prototype.trim()`: drop whitespace from both ends. -/
def jsTrim (s : String) : String :=
  ⟨((s.toList.dropWhile Char.isWhitespace).reverse.dropWhile Char.isWhitespace).reverse⟩

/-- The `POST /api/todos` request body. -/
structure CreateBody where
  title : Option String
  description : Option String
  dueDate : Option Nat
  priority : Option String
  status : Option String
deriving Repr, DecidableEq

/-- `60 * 60 * 1000` — the fixed one-hour default event duration. -/
def oneHourMs : Nat := 60 * 60 * 1000

/-- Embedding of `createTodo` (todoController.js): validate the title, insert
the row without a link, and if a due date is present attempt the calendar
sync, patching the link on success and merely logging on failure.  Returns
the store after the call, the gateway-call trace, and the response. -/
def createTodo (s : Store) (env : GatewayEnv) (uid : Nat) (body : CreateBody) :
    Store × List GCall × Resp :=
  match body.title with
  | none => (s, [], ⟨400, .fail "Title is required"⟩)
  | some rawTitle =>
    if jsTrim rawTitle = "" then
      (s, [], ⟨400, .fail "Title is required"⟩)
    else
      let data : Todo :=
        { id := s.nextId, user_id := uid, title := jsTrim rawTitle
          description := body.description
          due_date := body.dueDate
          priority := jsOrStr body.priority "medium"
          status := jsOrStr body.status "pending"
          calendar_event_id := none, completed_at := none }
      let s1 : Store := { todos := s.todos ++ [data], nextId := s.nextId + 1 }
      match body.dueDate with
      | none => (s1, [], ⟨201, .todo (formatTodo data data.calendar_event_id)⟩)
      | some due =>
        let startMs := due
        let endMs := due + oneHourMs
        let res := createCalendarEventHelper env (jsTrim rawTitle) startMs endMs
        if res.fst.success then
          let patched := updateTodoRow s1.todos data.id
            (fun t => { t with calendar_event_id := res.fst.eventId })
          let s2 : Store := { s1 with todos := patched }
          (s2, res.snd, ⟨201, .todo (formatTodo data res.fst.eventId)⟩)
        else
          (s1, res.snd, ⟨201, .todo (formatTodo data data.calendar_event_id)⟩)

/-- Embedding of `getTodoById`: the query filters by id AND owner, so a todo
owned by another user is indistinguishable from an absent one (404). -/
def getTodoById (s : Store) (uid : Nat) (todoId : Nat) : Resp :=
  match s.todos.find? (fun t => t.id == todoId && t.user_id == uid) with
  | none => ⟨404, .fail "Todo not found"⟩
  | some t => ⟨200, .todo (formatTodo t t.calendar_event_id)⟩

/-- The `PUT /api/todos/:id` request body: each field is `none` when absent
from the patch.  `description`/`dueDate` may be present-but-null. -/
structure UpdateBody where
  title : Option String
  description : Option (Option String)
  priority : Option String
  status : Option String
  dueDate : Option (Option Nat)
deriving Repr, DecidableEq

/-- Whether the patch carries at least one updatable field
(`Object.keys(updateData).length === 0` check). -/
def hasUpdateFields (body : UpdateBody) : Bool :=
  body.title.isSome || body.description.isSome || body.priority.isSome
    || body.status.isSome || body.dueDate.isSome

/-- The row produced by applying the patch (`updateData`) to a row; the title
is stored trimmed, as in the source. -/
def applyPatch (body : UpdateBody) (t : Todo) : Todo :=
  { t with
    title := match body.title with | some v => jsTrim v | none => t.title
    description := match body.description with | some v => v | none => t.description
    priority := match body.priority with | some v => v | none => t.priority
    status := match body.status with | some v => v | none => t.status
    due_date := match body.dueDate with | some v => v | none => t.due_date }

/-- `titleChanged = req.body.title !== undefined && req.body.title !==
existingTodo.title` (the raw, untrimmed patch value is compared). -/
def titleChanged (body : UpdateBody) (existing : Todo) : Bool :=
  match body.title with
  | some v => v ≠ existing.title
  | none => false

/-- `dueDateChanged = req.body.dueDate !== undefined && req.body.dueDate !==
existingTodo.due_date`. -/
def dueDateChanged (body : UpdateBody) (existing : Todo) : Bool :=
  match body.dueDate with
  | some v => v ≠ existing.due_date
  | none => false

/-- Embedding of `updateTodo` (todoController.js): ownership check, patch,
then the sync branch on `(existing link, post-patch due date)` exactly as in
the source (update / create / delete the remote event, best-effort). -/
def updateTodo (s : Store) (env : GatewayEnv) (uid : Nat) (todoId : Nat)
    (body : UpdateBody) : Store × List GCall × Resp :=
  match s.todos.find? (fun t => t.id == todoId) with
  | none => (s, [], ⟨404, .fail "Todo not found"⟩)
  | some existingTodo =>
    if existingTodo.user_id ≠ uid then
      (s, [], ⟨401, .fail "Not authorized to update this todo"⟩)
    else if !hasUpdateFields body then
      (s, [], ⟨400, .fail "No fields to update"⟩)
    else
      let updatedTodo := applyPatch body existingTodo
      let s1 : Store := { s with todos := updateTodoRow s.todos todoId (applyPatch body) }
      if titleChanged body existingTodo || dueDateChanged body existingTodo then
        match existingTodo.calendar_event_id, updatedTodo.due_date with
        | some eventId, some due =>
          -- Case 1: existing calendar event and a due date: update it in place.
          let res := updateCalendarEventHelper env eventId updatedTodo.title due (due + oneHourMs)
          (s1, res.snd, ⟨200, .todo (formatTodo updatedTodo updatedTodo.calendar_event_id)⟩)
        | none, some due =>
          -- Case 2: no calendar event but a due date: create one and patch the link.
          let res := createCalendarEventHelper env updatedTodo.title due (due + oneHourMs)
          if res.fst.success then
            let patched := updateTodoRow s1.todos todoId
              (fun t => { t with calendar_event_id := res.fst.eventId })
            let s2 : Store := { s1 with todos := patched }
            (s2, res.snd, ⟨200, .todo (formatTodo updatedTodo res.fst.eventId)⟩)
          else
            (s1, res.snd, ⟨200, .todo (formatTodo updatedTodo updatedTodo.calendar_event_id)⟩)
        | some eventId, none =>
          -- Case 3: due date removed: delete the calendar event and clear the link.
          let res := deleteCalendarEventHelper env eventId
          if res.fst.success then
            let patched := updateTodoRow s1.todos todoId
              (fun t => { t with calendar_event_id := none })
            let s2 : Store := { s1 with todos := patched }
            (s2, res.snd, ⟨200, .todo (formatTodo updatedTodo none)⟩)
          else
            (s1, res.snd, ⟨200, .todo (formatTodo updatedTodo updatedTodo.calendar_event_id)⟩)
        | none, none =>
          (s1, [], ⟨200, .todo (formatTodo updatedTodo updatedTodo.calendar_event_id)⟩)
      else
        (s1, [], ⟨200, .todo (formatTodo updatedTodo updatedTodo.calendar_event_id)⟩)

/-- Embedding of `deleteTodo`: ownership check, best-effort remote event
deletion when a link exists, then unconditional row deletion. -/
def deleteTodo (s : Store) (env : GatewayEnv) (uid : Nat) (todoId : Nat) :
    Store × List GCall × Resp :=
  match s.todos.find? (fun t => t.id == todoId) with
  | none => (s, [], ⟨404, .fail "Todo not found"⟩)
  | some existingTodo =>
    if existingTodo.user_id ≠ uid then
      (s, [], ⟨401, .fail "Not authorized to delete this todo"⟩)
    else
      let calls :=
        match existingTodo.calendar_event_id with
        | some eid => (deleteCalendarEventHelper env eid).snd
        | none => []
      let s1 : Store := { s with todos := s.todos.filter (fun t => t.id ≠ todoId) }
      (s1, calls, ⟨200, .message "Todo deleted successfully"⟩)

/-- Embedding of `completeTodo` (the toggle): flip `status` between
`completed` and `pending`, setting/clearing `completed_at` in the same
update.  `now` is the `new Date().toISOString()` instant. -/
def completeTodo (s : Store) (uid : Nat) (todoId : Nat) (now : Nat) : Store × Resp :=
  match s.todos.find? (fun t => t.id == todoId) with
  | none => (s, ⟨404, .fail "Todo not found"⟩)
  | some existingTodo =>
    if existingTodo.user_id ≠ uid then
      (s, ⟨401, .fail "Not authorized"⟩)
    else
      let newStatus := if existingTodo.status = "completed" then "pending" else "completed"
      let completedAt := if newStatus = "completed" then some now else none
      let flip : Todo → Todo := fun t => { t with status := newStatus, completed_at := completedAt }
      let s1 : Store := { s with todos := updateTodoRow s.todos todoId flip }
      (s1, ⟨200, .todo (formatTodo (flip existingTodo) (flip existingTodo).calendar_event_id)⟩)

/-- Embedding of `linkTodoToCalendar` (`PUT /api/todos/:id/link-calendar`):
sets `calendar_event_id` to the supplied event id after an ownership check —
with no check that the event id is not already linked elsewhere. -/
def linkTodoToCalendar (s : Store) (uid : Nat) (todoId : Nat)
    (eventId : Option String) : Store × Resp :=
  match eventId with
  | none => (s, ⟨400, .fail "Event ID is required"⟩)
  | some eid =>
    if eid = "" then (s, ⟨400, .fail "Event ID is required"⟩)
    else
      match s.todos.find? (fun t => t.id == todoId) with
      | none => (s, ⟨404, .fail "Todo not found"⟩)
      | some existingTodo =>
        if existingTodo.user_id ≠ uid then
          (s, ⟨401, .fail "Not authorized"⟩)
        else
          let patched := updateTodoRow s.todos todoId
            (fun t => { t with calendar_event_id := some eid })
          let s1 : Store := { s with todos := patched }
          (s1, ⟨200, .todo (formatTodo { existingTodo with calendar_event_id := some eid } (some eid))⟩)

/-- Embedding of JS `parseInt(s)` called with no radix argument, as the
source does: skip leading whitespace, accept an optional sign, auto-detect a
`0x`/`0X` prefix as radix 16 (ECMAScript's no-radix behaviour), otherwise
read leading decimal digits; `none` stands for NaN. -/
def parseIntJS (s : String) : Option Int :=
  let readDigits : List Char → Option Nat := fun cs =>
    let ds := cs.takeWhile Char.isDigit
    if ds.isEmpty then none
    else some (ds.foldl (fun acc c => acc * 10 + (c.toNat - 48)) 0)
  let isHexDigit : Char → Bool := fun c =>
    c.isDigit || (97 ≤ c.toNat && c.toNat ≤ 102) || (65 ≤ c.toNat && c.toNat ≤ 70)
  let hexVal : Char → Nat := fun c =>
    if c.isDigit then c.toNat - 48
    else if 97 ≤ c.toNat then c.toNat - 87
    else c.toNat - 55
  let readHex : List Char → Option Nat := fun cs =>
    let ds := cs.takeWhile isHexDigit
    if ds.isEmpty then none
    else some (ds.foldl (fun acc c => acc * 16 + hexVal c) 0)
  let readMag : List Char → Option Nat := fun cs =>
    match cs with
    | c0 :: c1 :: rest =>
      if c0 = Char.ofNat 48 && (c1 = Char.ofNat 120 || c1 = Char.ofNat 88) then readHex rest
      else readDigits cs
    | _ => readDigits cs
  let cs := s.toList.dropWhile Char.isWhitespace
  match cs with
  | [] => none
  | c :: rest =>
    if c = Char.ofNat 45 then (readMag rest).map (fun n => -(n : Int))
    else if c = Char.ofNat 43 then (readMag rest).map (fun n => (n : Int))
    else (readMag (c :: rest)).map (fun n => (n : Int))

/-- `parseInt(req.query.limit) || 2`: an absent parameter, a NaN parse, or a
parse to `0` all fall back to the default limit 2. -/
def limitOf (q : Option String) : Int :=
  match q with
  | none => 2
  | some str =>
    match parseIntJS str with
    | none => 2
    | some n => if n = 0 then 2 else n

/-- The row filter of `getUpcomingTodos`: owned by the caller, not completed,
due date present and `>= now`. -/
def upcomingFilter (uid now : Nat) (t : Todo) : Bool :=
  t.user_id == uid && t.status ≠ "completed" &&
    (match t.due_date with
     | some d => now ≤ d
     | none => false)

/-- Sort key for the ascending due-date ordering (every row passing
`upcomingFilter` has a due date, so the default is immaterial). -/
def dueKey (t : Todo) : Nat := t.due_date.getD 0

/-- Embedding of `getUpcomingTodos` (`GET /api/todos/upcoming?limit=N`). -/
def getUpcomingTodos (s : Store) (uid : Nat) (limitParam : Option String)
    (now : Nat) : Resp :=
  let lim := limitOf limitParam
  let rows := s.todos.filter (upcomingFilter uid now)
  let sorted := List.insertionSort (fun a b => dueKey a ≤ dueKey b) rows
  let limited := sorted.take lim.toNat
  ⟨200, .todos (limited.map (fun t => formatTodo t t.calendar_event_id))⟩

/-- Embedding of `addEvent` (calenderController.js): refresh the credential
(401 `needsReconnect` when unavailable), insert the remote event (500 when
the remote call throws), then best-effort auto-create a linked todo whose
due date is the event start. -/
def addEvent (s : Store) (env : GatewayEnv) (uid : Nat) (title : String)
    (startMs _endMs : Nat) : Store × Resp :=
  match (refreshTokenIfNeeded env.refresh).fst with
  | none => (s, ⟨401, .fail "Google Calendar not connected. Please reconnect."⟩)
  | some _ =>
    match env.insertResult with
    | none => (s, ⟨500, .fail "insert failed"⟩)
    | some eid =>
      let newTodo : Todo :=
        { id := s.nextId, user_id := uid, title := title
          description := none, priority := "medium", status := "pending"
          due_date := some startMs, calendar_event_id := some eid
          completed_at := none }
      let s1 : Store := { todos := s.todos ++ [newTodo], nextId := s.nextId + 1 }
      (s1, ⟨200, .event eid⟩)

/-- The `.single()` lookup of a linked todo: succeeds only when exactly one
row matches `(calendar_event_id, user_id)`. -/
def findLinkedSingle (todos : List Todo) (uid : Nat) (eventId : String) : Option Todo :=
  match todos.filter (fun t => t.calendar_event_id == some eventId && t.user_id == uid) with
  | [t] => some t
  | _ => none

/-- Embedding of `updateEvent`: update the remote event, then best-effort
sync title and due date into the (single) linked todo, if any. -/
def updateEvent (s : Store) (env : GatewayEnv) (uid : Nat) (eventId title : String)
    (startMs _endMs : Nat) : Store × Resp :=
  match (refreshTokenIfNeeded env.refresh).fst with
  | none => (s, ⟨401, .fail "Google Calendar not connected. Please reconnect."⟩)
  | some _ =>
    if !env.updateOk then (s, ⟨500, .fail "update failed"⟩)
    else
      match findLinkedSingle s.todos uid eventId with
      | none => (s, ⟨200, .event eventId⟩)
      | some linkedTodo =>
        let patched := updateTodoRow s.todos linkedTodo.id
          (fun t => { t with title := title, due_date := some startMs })
        (({ s with todos := patched } : Store), ⟨200, .event eventId⟩)

/-- Embedding of `deleteEvent`: delete the remote event, then best-effort
delete the (single) linked todo, if any. -/
def deleteEvent (s : Store) (env : GatewayEnv) (uid : Nat) (eventId : String) :
    Store × Resp :=
  match (refreshTokenIfNeeded env.refresh).fst with
  | none => (s, ⟨401, .fail "Google Calendar not connected. Please reconnect."⟩)
  | some _ =>
    if !env.deleteOk then (s, ⟨500, .fail "delete failed"⟩)
    else
      match findLinkedSingle s.todos uid eventId with
      | none => (s, ⟨200, .message "Event deleted successfully"⟩)
      | some linkedTodo =>
        let remaining := s.todos.filter (fun t => t.id ≠ linkedTodo.id)
        (({ s with todos := remaining } : Store), ⟨200, .message "Event deleted successfully"⟩)

/-- One operation of the combined todo/calendar interface, with the request
arguments and the external-world environment it runs against. -/
inductive Op where
  | opCreate (uid : Nat) (env : GatewayEnv) (body : CreateBody)
  | opUpdate (uid : Nat) (env : GatewayEnv) (todoId : Nat) (body : UpdateBody)
  | opDelete (uid : Nat) (env : GatewayEnv) (todoId : Nat)
  | opComplete (uid todoId now : Nat)
  | opLink (uid todoId : Nat) (eventId : Option String)
  | opAddEvent (uid : Nat) (env : GatewayEnv) (title : String) (startMs endMs : Nat)
  | opUpdateEvent (uid : Nat) (env : GatewayEnv) (eventId title : String) (startMs endMs : Nat)
  | opDeleteEvent (uid : Nat) (env : GatewayEnv) (eventId : String)
deriving Repr

/-- The store transition of one operation. -/
def runOp (s : Store) : Op → Store
  | .opCreate uid env body => (createTodo s env uid body).fst
  | .opUpdate uid env todoId body => (updateTodo s env uid todoId body).fst
  | .opDelete uid env todoId => (deleteTodo s env uid todoId).fst
  | .opComplete uid todoId now => (completeTodo s uid todoId now).fst
  | .opLink uid todoId eventId => (linkTodoToCalendar s uid todoId eventId).fst
  | .opAddEvent uid env title startMs endMs => (addEvent s env uid title startMs endMs).fst
  | .opUpdateEvent uid env eventId title startMs endMs =>
      (updateEvent s env uid eventId title startMs endMs).fst
  | .opDeleteEvent uid env eventId => (deleteEvent s env uid eventId).fst

/-- The store after a sequence of operations. -/
def runOps (s : Store) : List Op → Store
  | [] => s
  | op :: ops => runOps (runOp s op) ops

/-- All non-null `calendar_event_id` values of a row list (with
multiplicity). -/
def links (todos : List Todo) : List String :=
  todos.filterMap (fun t => t.calendar_event_id)

/-- Link uniqueness: at most one todo holds any given non-null event id. -/
def UniqueLinks (s : Store) : Prop := (links s.todos).Nodup

/-- Store well-formedness: row ids are distinct and below the fresh-id
counter (the insert path of the handlers maintains this). -/
def StoreWF (s : Store) : Prop :=
  (s.todos.map (fun t => t.id)).Nodup ∧ ∀ t ∈ s.todos, t.id < s.nextId

/-- The empty store. -/
def store0 : Store := { todos := [], nextId := 0 }

/-- The event id an operation may newly link into the store: the gateway's
insert outcome for the create paths, and the explicit event id of a
link-calendar request. -/
def opNewId : Op → Option String
  | .opCreate _ env _ => env.insertResult
  | .opUpdate _ env _ _ => env.insertResult
  | .opLink _ _ eventId => eventId
  | .opAddEvent _ env _ _ _ => env.insertResult
  | _ => none

/-- Freshness of one operation against a store: any event id it may newly
link is not currently linked by any todo. -/
def OpFresh (s : Store) (op : Op) : Prop :=
  ∀ e, opNewId op = some e → e ∉ links s.todos

/-- Freshness of a whole operation sequence, step by step. -/
def FreshSeq (s : Store) : List Op → Prop
  | [] => True
  | op :: ops => OpFresh s op ∧ FreshSeq (runOp s op) ops

/-- Decidability of `UniqueLinks`, so that concrete stores can be checked. -/
instance decUniqueLinks (s : Store) : Decidable (UniqueLinks s) := by
  unfold UniqueLinks; infer_instance

/-- Decidability of `StoreWF`. -/
instance decStoreWF (s : Store) : Decidable (StoreWF s) := by
  unfold StoreWF; exact instDecidableAnd

/-- A create-request body carrying only a title. -/
def plainCreateBody (t : String) : CreateBody :=
  { title := some t, description := none, dueDate := none, priority := none, status := none }

/-- Whether a Gregorian year is a leap year. -/
def isLeapYear (y : Nat) : Bool := (y % 4 = 0 && y % 100 ≠ 0) || y % 400 = 0

/-- Day count of a month (1-based) of a Gregorian year. -/
def daysInMonth (y m : Nat) : Nat :=
  if m = 2 then (if isLeapYear y then 29 else 28)
  else if m = 4 || m = 6 || m = 9 || m = 11 then 30
  else 31

/-- Days from 1970-01-01 to the first day of year `y` (`y ≥ 1970`). -/
def daysSinceEpochToYear (y : Nat) : Nat :=
  (List.range (y - 1970)).foldl
    (fun acc i => acc + (if isLeapYear (1970 + i) then 366 else 365)) 0

/-- Days from the first of January to the first of month `m` of year `y`. -/
def daysToMonth (y m : Nat) : Nat :=
  (List.range (m - 1)).foldl (fun acc i => acc + daysInMonth y (i + 1)) 0

/-- Unix-epoch milliseconds of the UTC instant `y-m-d hh:mm:ss Z`, the value
`new Date("y-m-dThh:mm:ssZ").getTime()` yields. -/
def epochMillisUTC (y m d hh mi ss : Nat) : Nat :=
  ((daysSinceEpochToYear y + daysToMonth y m + (d - 1)) * 86400
    + hh * 3600 + mi * 60 + ss) * 1000

/-- Completion/timestamp coupling invariant of a single row. -/
def CompInv (t : Todo) : Prop := t.completed_at ≠ none ↔ t.status = "completed"

/-! ### Concrete fixtures used by witnesses and counterexamples -/

/-- A stored credential that is far from expiry. -/
def tokenRowLongLived : TokenRow :=
  { access_token := some "at", refresh_token := some "rt"
    expiry_date := some 999999999999999 }

/-- A refresh environment in which the calendar is connected and the stored
token is valid. -/
def refreshConnected : RefreshEnv :=
  { stored := some tokenRowLongLived, now := 0, refreshOutcome := none, persistOk := true }

/-- A refresh environment with no stored credential (calendar never
connected). -/
def refreshDisconnected : RefreshEnv :=
  { stored := none, now := 0, refreshOutcome := none, persistOk := true }

/-- A gateway environment in which every remote operation succeeds. -/
def gwOk : GatewayEnv :=
  { refresh := refreshConnected, insertResult := some "evt-42"
    updateOk := true, deleteOk := true }

/-- A gateway environment with no usable credential. -/
def gwDown : GatewayEnv :=
  { refresh := refreshDisconnected, insertResult := some "evt-42"
    updateOk := true, deleteOk := true }

/-- A create-request body with a due date of 2025-06-01T09:00:00Z. -/
def writeReportBody : CreateBody :=
  { title := some "Write report", description := none
    dueDate := some (epochMillisUTC 2025 6 1 9 0 0), priority := none, status := none }

/-- An update-request body that is empty except for a `dueDate: null` entry
(the due-date-clearing patch). -/
def clearDueBody : UpdateBody :=
  { title := none, description := none, priority := none, status := none
    dueDate := some none }

/-- A stored credential whose access token expired long ago. -/
def expiringRow : TokenRow :=
  { access_token := some "old", refresh_token := some "rt", expiry_date := some 100 }

/-- The provider's answer to a successful refresh exchange. -/
def refreshedCreds : GoogleCredentials :=
  { access_token := some "new", refresh_token := none, expiry_date := some 5000000 }

/-- A refresh environment in which the stored token is expired and the
provider accepts the refresh. -/
def refreshEnvExpiring : RefreshEnv :=
  { stored := some expiringRow, now := 1000000
    refreshOutcome := some refreshedCreds, persistOk := true }

/-- A refresh environment in which the stored token is expired and the
provider rejects the refresh. -/
def refreshEnvRejected : RefreshEnv :=
  { stored := some expiringRow, now := 1000000, refreshOutcome := none, persistOk := true }

/-- A pending, unlinked todo row with a due date, owned by user 1. -/
def pendingTodoRow : Todo :=
  { id := 0, user_id := 1, title := "a", description := none
    priority := "medium", status := "pending", due_date := some 100
    calendar_event_id := none, completed_at := none }

/-- A one-row store holding `pendingTodoRow`. -/
def storeOnePending : Store := { todos := [pendingTodoRow], nextId := 1 }

/-- Decidability of `CompInv`, so that concrete stores can be checked. -/
instance decCompInv (t : Todo) : Decidable (CompInv t) := by
  unfold CompInv; exact inferInstance

/-- An update-request body patching only the status to `completed`. -/
def statusCompletedBody : UpdateBody :=
  { title := none, description := none, priority := none
    status := some "completed", dueDate := none }

/-- An update-request body patching only the title. -/
def titleOnlyBody : UpdateBody :=
  { title := some "b", description := none, priority := none
    status := none, dueDate := none }

/-- An update-request body patching only the description. -/
def descOnlyBody : UpdateBody :=
  { title := none, description := some (some "note"), priority := none
    status := none, dueDate := none }

/-- Whether a recorded gateway call is a `createEvent`. -/
def isCreateCall : GCall → Bool
  | .createEv _ _ _ => true
  | _ => false

/-- Whether a recorded gateway call is a `deleteEvent`. -/
def isDeleteCall : GCall → Bool
  | .deleteEv _ => true
  | _ => false

/-- The trace of one `createCalendarEventHelper` invocation is always the
single recorded call, whatever the outcome. -/
theorem createCalendarEventHelper_calls (env : GatewayEnv) (title : String)
    (startMs endMs : Nat) :
    (createCalendarEventHelper env title startMs endMs).snd
      = [GCall.createEv title startMs endMs] := by
  unfold createCalendarEventHelper
  cases (refreshTokenIfNeeded env.refresh).fst with
  | none => rfl
  | some _ => cases env.insertResult <;> rfl

/-- The trace of one `updateCalendarEventHelper` invocation. -/
theorem updateCalendarEventHelper_calls (env : GatewayEnv) (eventId title : String)
    (startMs endMs : Nat) :
    (updateCalendarEventHelper env eventId title startMs endMs).snd
      = [GCall.updateEv eventId title startMs endMs] := by
  unfold updateCalendarEventHelper
  cases (refreshTokenIfNeeded env.refresh).fst <;> rfl

/-- The trace of one `deleteCalendarEventHelper` invocation. -/
theorem deleteCalendarEventHelper_calls (env : GatewayEnv) (eventId : String) :
    (deleteCalendarEventHelper env eventId).snd = [GCall.deleteEv eventId] := by
  unfold deleteCalendarEventHelper
  cases (refreshTokenIfNeeded env.refresh).fst <;> rfl

/-- Outcome of `createCalendarEventHelper` when a credential is available
and the remote insert succeeds. -/
theorem createCalendarEventHelper_success (env : GatewayEnv) (title : String)
    (startMs endMs : Nat) (td : TokenData) (eid : String)
    (hconn : (refreshTokenIfNeeded env.refresh).fst = some td)
    (hins : env.insertResult = some eid) :
    (createCalendarEventHelper env title startMs endMs).fst
      = { success := true, eventId := some eid } := by
  unfold createCalendarEventHelper
  rw [hconn, hins]

/-- Outcome of `deleteCalendarEventHelper` when a credential is available
and the remote delete succeeds. -/
theorem deleteCalendarEventHelper_success (env : GatewayEnv) (eid : String) (td : TokenData)
    (hconn : (refreshTokenIfNeeded env.refresh).fst = some td)
    (hdel : env.deleteOk = true) :
    (deleteCalendarEventHelper env eid).fst = { success := true, eventId := none } := by
  unfold deleteCalendarEventHelper
  rw [hconn, hdel]

/-- Every element of an `updateTodoRow` image comes from a row of the
original list, modified only when its id matches. -/
theorem mem_updateTodoRow (todos : List Todo) (id : Nat) (f : Todo → Todo) (t : Todo)
    (ht : t ∈ updateTodoRow todos id f) :
    ∃ u ∈ todos, t = if u.id = id then f u else u := by
  simp only [updateTodoRow, List.mem_map] at ht
  obtain ⟨u, hu, rfl⟩ := ht
  exact ⟨u, hu, rfl⟩

/-- Looking up the freshly appended row after an `updateTodoRow` pass finds
its (modified) image, provided all earlier ids are smaller. -/
theorem find?_updateTodoRow_append (xs : List Todo) (d : Todo) (nid : Nat) (f : Todo → Todo)
    (hlt : ∀ t ∈ xs, t.id < nid) (hd : d.id = nid) (hf : (f d).id = d.id) :
    (updateTodoRow (xs ++ [d]) nid f).find? (fun t => t.id == nid) = some (f d) := by
  induction xs with
  | nil =>
    simp only [List.nil_append, updateTodoRow, List.map_cons, List.map_nil, hd, if_pos]
    rw [List.find?_cons_of_pos]
    simp [hf, hd]
  | cons x xs ih =>
    have hx : x.id < nid := hlt x (by simp)
    have hxs : ∀ t ∈ xs, t.id < nid := fun t ht => hlt t (by simp [ht])
    simp only [List.cons_append, updateTodoRow, List.map_cons] at *
    rw [if_neg (Nat.ne_of_lt hx), List.find?_cons_of_neg]
    · exact ih hxs
    · simp [Nat.ne_of_lt hx]

/-! ## Claims -/

/-- Claim C6: creating the todo `{title:"Write report",
dueDate:"2025-06-01T09:00:00Z"}` with the calendar connected and the Gateway
succeeding issues exactly one `createEvent` call whose start instant is
2025-06-01T09:00:00Z and whose end instant is 2025-06-01T10:00:00Z (start
plus one hour), and the response todo's linked event id is the id the
Gateway returned. -/
theorem createTodo_scenario_one_hour_event :
    (createTodo store0 gwOk 7 writeReportBody).snd.fst
        = [GCall.createEv "Write report" (epochMillisUTC 2025 6 1 9 0 0)
            (epochMillisUTC 2025 6 1 10 0 0)] ∧
    epochMillisUTC 2025 6 1 10 0 0 = epochMillisUTC 2025 6 1 9 0 0 + oneHourMs ∧
    (createTodo store0 gwOk 7 writeReportBody).snd.snd.status = 201 ∧
    (∃ out, (createTodo store0 gwOk 7 writeReportBody).snd.snd.body = .todo out ∧
      out.calendarEventId = gwOk.insertResult) := by
  exact ⟨by decide, by decide, by decide, ⟨_, rfl, by decide⟩⟩

/-- Claim C1: when the title is non-empty and a due date is supplied but the
Calendar Gateway's create fails (credential unavailable or remote failure),
the todo is still persisted with a null `calendar_event_id`, and the create
endpoint still answers 201 carrying the stored (unlinked) todo — the
secondary sync failure is not propagated. -/
theorem createTodo_gateway_failure_persists_unlinked
    (s : Store) (env : GatewayEnv) (uid : Nat) (body : CreateBody)
    (ti : String) (due : Nat)
    (hti : body.title = some ti) (htrim : jsTrim ti ≠ "")
    (hdue : body.dueDate = some due)
    (hfail : (createCalendarEventHelper env (jsTrim ti) due (due + oneHourMs)).fst.success = false) :
    (createTodo s env uid body).snd.snd.status = 201 ∧
    (∃ out, (createTodo s env uid body).snd.snd.body = .todo out ∧
      out.id = s.nextId ∧ out.calendarEventId = none) ∧
    (∃ t, t ∈ (createTodo s env uid body).fst.todos ∧ t.id = s.nextId ∧
      t.user_id = uid ∧ t.title = jsTrim ti ∧ t.due_date = some due ∧
      t.calendar_event_id = none) := by
  simp only [createTodo, hti, hdue, if_neg htrim, hfail, Bool.false_eq_true, if_false]
  refine ⟨trivial, ⟨_, rfl, rfl, rfl⟩, ?_⟩
  exact ⟨_, List.mem_append_right _ (List.mem_singleton.mpr rfl), rfl, rfl, rfl, rfl, rfl⟩

/-- Witness for `createTodo_gateway_failure_persists_unlinked` at a concrete
disconnected gateway. -/
theorem createTodo_gateway_failure_persists_unlinked_witness :
    (createTodo store0 gwDown 7 writeReportBody).snd.snd.status = 201 ∧
    (∃ out, (createTodo store0 gwDown 7 writeReportBody).snd.snd.body = .todo out ∧
      out.id = store0.nextId ∧ out.calendarEventId = none) ∧
    (∃ t, t ∈ (createTodo store0 gwDown 7 writeReportBody).fst.todos ∧
      t.id = store0.nextId ∧ t.user_id = 7 ∧ t.title = jsTrim "Write report" ∧
      t.due_date = some (epochMillisUTC 2025 6 1 9 0 0) ∧
      t.calendar_event_id = none) :=
  createTodo_gateway_failure_persists_unlinked store0 gwDown 7 writeReportBody
    "Write report" (epochMillisUTC 2025 6 1 9 0 0) rfl (by decide) rfl (by decide)

/-- Counterexample to claim C3 as stated: the completion/timestamp
biconditional does NOT hold after every operation that can change status.
Starting from a store whose single todo satisfies it, patching
`{status:"completed"}` through the general update endpoint yields a todo
with `status = completed` but `completed_at = null` — `updateTodo` never
touches `completed_at`. -/
theorem updateTodo_status_patch_breaks_completion_coupling :
    (∀ t ∈ storeOnePending.todos, CompInv t) ∧
    ¬ (∀ t ∈ (updateTodo storeOnePending gwOk 1 0 statusCompletedBody).fst.todos, CompInv t) :=
  ⟨by decide, by decide⟩

/-- Claim C3 (amended): `completedAt` is non-null iff `status == completed`
holds before and after every `complete` toggle — the toggle (re)establishes
the coupling on the row it touches and leaves all other rows unchanged.  The
general update endpoint does not preserve the invariant when the patch
contains `status` (see the counterexample). -/
theorem completeTodo_preserves_completion_coupling
    (s : Store) (uid todoId now : Nat)
    (hinv : ∀ t ∈ s.todos, CompInv t) :
    ∀ t ∈ (completeTodo s uid todoId now).fst.todos, CompInv t := by
  unfold completeTodo
  cases hfind : s.todos.find? (fun t => t.id == todoId) with
  | none => simpa using hinv
  | some ex =>
    by_cases howner : ex.user_id ≠ uid
    · simp only [if_pos howner]
      simpa using hinv
    · simp only [if_neg howner]
      intro t ht
      simp only [updateTodoRow, List.mem_map] at ht
      obtain ⟨u, hu, rfl⟩ := ht
      by_cases h : u.id = todoId
      · simp only [if_pos h]
        unfold CompInv
        by_cases hc : ex.status = "completed" <;> simp [hc]
      · simpa [if_neg h] using hinv u hu

/-- Witness for `completeTodo_preserves_completion_coupling`: toggling the
concrete pending todo yields a completed row satisfying the coupling. -/
theorem completeTodo_preserves_completion_coupling_witness :
    CompInv { pendingTodoRow with status := "completed", completed_at := some 555 } :=
  completeTodo_preserves_completion_coupling storeOnePending 1 0 555 (by decide)
    { pendingTodoRow with status := "completed", completed_at := some 555 } (by decide)

/-- Counterexample to claim C4 as stated: updating only the title of an
UNLINKED todo whose due date was already set and stays unchanged DOES issue
a `Gateway.createEvent` call — the source's creation-path guard is `no link
AND post-update due date present`, not `due date newly set`. -/
theorem updateTodo_title_only_unlinked_with_due_calls_create :
    (updateTodo storeOnePending gwOk 1 0 titleOnlyBody).snd.fst
      = [GCall.createEv "b" 100 (100 + oneHourMs)] := by decide

/-- Claim C4 (amended): during an update where title or due date changed,
the event-creation path is taken exactly when the prior link is absent and
the post-patch due date is present — whether or not the due date is newly
set. -/
theorem updateTodo_create_path_iff_unlinked_with_due
    (s : Store) (env : GatewayEnv) (uid todoId : Nat) (body : UpdateBody) (ex : Todo)
    (hfind : s.todos.find? (fun t => t.id == todoId) = some ex)
    (hown : ex.user_id = uid)
    (hchanged : (titleChanged body ex || dueDateChanged body ex) = true) :
    ((updateTodo s env uid todoId body).snd.fst.any isCreateCall = true)
      ↔ (ex.calendar_event_id = none ∧ (applyPatch body ex).due_date ≠ none) := by
  have hhf : hasUpdateFields body = true := by
    rcases Bool.or_eq_true_iff.mp hchanged with h | h
    · unfold titleChanged at h
      unfold hasUpdateFields
      cases hb : body.title with
      | none => rw [hb] at h; exact absurd h (by simp)
      | some v => simp [hb]
    · unfold dueDateChanged at h
      unfold hasUpdateFields
      cases hb : body.dueDate with
      | none => rw [hb] at h; exact absurd h (by simp)
      | some v => simp [hb]
  unfold updateTodo
  rw [hfind]
  simp only [hown, ne_eq, not_true_eq_false, if_neg, hhf, Bool.not_true, Bool.false_eq_true,
    if_false, if_true, hchanged, ite_not]
  cases hlink : ex.calendar_event_id with
  | some eid =>
    cases hdue : (applyPatch body ex).due_date with
    | some d => simp [isCreateCall, updateCalendarEventHelper_calls, hlink, hdue]
    | none =>
      cases hsucc : (deleteCalendarEventHelper env eid).fst.success <;>
        simp [isCreateCall, deleteCalendarEventHelper_calls, hlink, hdue, hsucc]
  | none =>
    cases hdue : (applyPatch body ex).due_date with
    | some d =>
      cases hsucc : (createCalendarEventHelper env (applyPatch body ex).title d (d + oneHourMs)).fst.success <;>
        simp [isCreateCall, createCalendarEventHelper_calls, hlink, hdue, hsucc]
    | none => simp [hlink, hdue]

/-- Witness for `updateTodo_create_path_iff_unlinked_with_due` at the
concrete title-only update of an unlinked todo with a due date. -/
theorem updateTodo_create_path_iff_unlinked_with_due_witness :
    ((updateTodo storeOnePending gwOk 1 0 titleOnlyBody).snd.fst.any isCreateCall = true)
      ↔ (pendingTodoRow.calendar_event_id = none ∧
          (applyPatch titleOnlyBody pendingTodoRow).due_date ≠ none) :=
  updateTodo_create_path_iff_unlinked_with_due storeOnePending gwOk 1 0 titleOnlyBody
    pendingTodoRow (by decide) (by decide) (by decide)

/-- Claim C9: an update whose patch carries only the description (title and
due date untouched) issues zero Calendar Gateway calls, answers 200, and
leaves every stored row's `calendar_event_id` and `due_date` unchanged. -/
theorem updateTodo_description_only_frame
    (s : Store) (env : GatewayEnv) (uid todoId : Nat) (d : Option String) (ex : Todo)
    (body : UpdateBody)
    (hfind : s.todos.find? (fun t => t.id == todoId) = some ex)
    (hown : ex.user_id = uid)
    (hbody : body = { title := none, description := some d, priority := none,
                      status := none, dueDate := none }) :
    (updateTodo s env uid todoId body).snd.fst = [] ∧
    (updateTodo s env uid todoId body).snd.snd.status = 200 ∧
    ∀ t ∈ (updateTodo s env uid todoId body).fst.todos, ∃ u ∈ s.todos,
      u.id = t.id ∧ t.calendar_event_id = u.calendar_event_id ∧ t.due_date = u.due_date := by
  subst hbody
  unfold updateTodo
  rw [hfind]
  simp only [hown, ne_eq, not_true_eq_false, if_neg, hasUpdateFields, titleChanged,
    dueDateChanged, Option.isSome_some, Bool.or_true, Bool.true_or, Bool.not_true,
    Bool.false_or, Bool.or_false, Bool.false_eq_true, if_false, Option.isSome_none]
  refine ⟨trivial, trivial, ?_⟩
  intro t ht
  simp only [updateTodoRow, List.mem_map] at ht
  obtain ⟨u, hu, rfl⟩ := ht
  by_cases h : u.id = todoId
  · exact ⟨u, hu, by simp [if_pos h, applyPatch]⟩
  · exact ⟨u, hu, by simp [if_neg h]⟩

/-- Witness for `updateTodo_description_only_frame` at a concrete
description-only patch. -/
theorem updateTodo_description_only_frame_witness :
    (updateTodo storeOnePending gwOk 1 0 descOnlyBody).snd.fst = [] ∧
    (updateTodo storeOnePending gwOk 1 0 descOnlyBody).snd.snd.status = 200 ∧
    ∀ t ∈ (updateTodo storeOnePending gwOk 1 0 descOnlyBody).fst.todos,
      ∃ u ∈ storeOnePending.todos,
        u.id = t.id ∧ t.calendar_event_id = u.calendar_event_id ∧ t.due_date = u.due_date :=
  updateTodo_description_only_frame storeOnePending gwOk 1 0 (some "note")
    pendingTodoRow descOnlyBody (by decide) (by decide) rfl

/-- Claim C8: cross-user access is rejected: an owner-scoped read of another
user's todo is a 404; update, delete and complete on an existing todo owned
by someone else are 401; and all four are 404 when the todo does not exist —
never a 200 in any of these situations. -/
theorem ownership_isolation :
    (∀ (s : Store) (A todoId : Nat),
      (∀ u ∈ s.todos, u.id = todoId → u.user_id ≠ A) →
      (getTodoById s A todoId).status = 404) ∧
    (∀ (s : Store) (env : GatewayEnv) (A todoId : Nat) (body : UpdateBody) (t : Todo),
      s.todos.find? (fun u => u.id == todoId) = some t → t.user_id ≠ A →
      (updateTodo s env A todoId body).snd.snd.status = 401) ∧
    (∀ (s : Store) (env : GatewayEnv) (A todoId : Nat) (t : Todo),
      s.todos.find? (fun u => u.id == todoId) = some t → t.user_id ≠ A →
      (deleteTodo s env A todoId).snd.snd.status = 401) ∧
    (∀ (s : Store) (A todoId now : Nat) (t : Todo),
      s.todos.find? (fun u => u.id == todoId) = some t → t.user_id ≠ A →
      (completeTodo s A todoId now).snd.status = 401) ∧
    (∀ (s : Store) (env : GatewayEnv) (A todoId now : Nat) (body : UpdateBody),
      s.todos.find? (fun u => u.id == todoId) = none →
      (getTodoById s A todoId).status = 404 ∧
      (updateTodo s env A todoId body).snd.snd.status = 404 ∧
      (deleteTodo s env A todoId).snd.snd.status = 404 ∧
      (completeTodo s A todoId now).snd.status = 404) := by
  refine ⟨?_, ?_, ?_, ?_, ?_⟩
  · intro s A todoId h
    unfold getTodoById
    have hnone : s.todos.find? (fun t => t.id == todoId && t.user_id == A) = none := by
      rw [List.find?_eq_none]
      intro u hu
      by_cases hid : u.id = todoId
      · simp [hid, h u hu hid]
      · simp [hid]
    rw [hnone]
  · intro s env A todoId body t hfind hne
    unfold updateTodo
    rw [hfind]
    simp [hne]
  · intro s env A todoId t hfind hne
    unfold deleteTodo
    rw [hfind]
    simp [hne]
  · intro s A todoId now t hfind hne
    unfold completeTodo
    rw [hfind]
    simp [hne]
  · intro s env A todoId now body hfind
    have hg : s.todos.find? (fun t => t.id == todoId && t.user_id == A) = none := by
      rw [List.find?_eq_none] at hfind ⊢
      intro u hu
      simp [hfind u hu]
    refine ⟨by unfold getTodoById; rw [hg], ?_, ?_, ?_⟩
    · unfold updateTodo; rw [hfind]
    · unfold deleteTodo; rw [hfind]
    · unfold completeTodo; rw [hfind]

/-- Witness for `ownership_isolation`: user 2 against user 1's todo, and
against an empty store. -/
theorem ownership_isolation_witness :
    (getTodoById storeOnePending 2 0).status = 404 ∧
    (updateTodo storeOnePending gwOk 2 0 titleOnlyBody).snd.snd.status = 401 ∧
    (deleteTodo storeOnePending gwOk 2 0).snd.snd.status = 401 ∧
    (completeTodo storeOnePending 2 0 5).snd.status = 401 ∧
    ((getTodoById store0 2 0).status = 404 ∧
      (updateTodo store0 gwOk 2 0 titleOnlyBody).snd.snd.status = 404 ∧
      (deleteTodo store0 gwOk 2 0).snd.snd.status = 404 ∧
      (completeTodo store0 2 0 5).snd.status = 404) :=
  ⟨ownership_isolation.1 storeOnePending 2 0 (by decide),
   ownership_isolation.2.1 storeOnePending gwOk 2 0 titleOnlyBody pendingTodoRow
     (by decide) (by decide),
   ownership_isolation.2.2.1 storeOnePending gwOk 2 0 pendingTodoRow (by decide) (by decide),
   ownership_isolation.2.2.2.1 storeOnePending 2 0 5 pendingTodoRow (by decide) (by decide),
   ownership_isolation.2.2.2.2 store0 gwOk 2 0 5 titleOnlyBody (by decide)⟩

/-- Claim C7: `refreshTokenIfNeeded` returns `none` when no credential is
stored; when the stored token expires within the 5-minute buffer and the
provider accepts the refresh, it persists the refreshed credential and
returns exactly the persisted data; when the refresh token is missing or the
provider rejects the exchange it returns `none` with the stored row
untouched (the model is a total function, mirroring the catch-all that
converts every thrown error to `null` — nothing escapes the boundary). -/
theorem refreshTokenIfNeeded_contract :
    (∀ env : RefreshEnv, env.stored = none → refreshTokenIfNeeded env = (none, none)) ∧
    (∀ (env : RefreshEnv) (row : TokenRow) (e : Nat) (rt : String) (creds : GoogleCredentials),
      env.stored = some row → row.expiry_date = some e → e ≤ env.now + expiryBufferMs →
      row.refresh_token = some rt → env.refreshOutcome = some creds → env.persistOk = true →
      ∃ row2 : TokenRow,
        refreshTokenIfNeeded env =
          (some { accessToken := row2.access_token, refreshToken := row2.refresh_token,
                  expiryDate := row2.expiry_date }, some row2) ∧
        row2.access_token = creds.access_token ∧
        row2.expiry_date = creds.expiry_date ∧
        row2.refresh_token
          = (match creds.refresh_token with | some r => some r | none => some rt)) ∧
    (∀ (env : RefreshEnv) (row : TokenRow) (e : Nat),
      env.stored = some row → row.expiry_date = some e → e ≤ env.now + expiryBufferMs →
      (row.refresh_token = none ∨ env.refreshOutcome = none) →
      refreshTokenIfNeeded env = (none, some row)) := by
  refine ⟨?_, ?_, ?_⟩
  · intro env h
    unfold refreshTokenIfNeeded
    rw [h]
  · intro env row e rt creds hs he hle hrt hro hp
    unfold refreshTokenIfNeeded
    rw [hs]
    simp only [he, hrt, hro, hp, decide_eq_true_eq, hle, if_true]
    exact ⟨TokenRow.mk creds.access_token
      (match creds.refresh_token with | some r => some r | none => some rt)
      creds.expiry_date, rfl, rfl, rfl, rfl⟩
  · intro env row e hs he hle hcase
    unfold refreshTokenIfNeeded
    rw [hs]
    simp only [he, decide_eq_true_eq, hle, if_true]
    rcases hcase with h | h
    · simp [h, hle]
    · cases hrt : row.refresh_token with
      | none => simp [hrt, hle]
      | some rt => simp [hrt, h, hle]

/-- Witness for `refreshTokenIfNeeded_contract` at a disconnected user, an
expired-but-refreshable credential, and a rejected refresh. -/
theorem refreshTokenIfNeeded_contract_witness :
    refreshTokenIfNeeded refreshDisconnected = (none, none) ∧
    (∃ row2 : TokenRow,
      refreshTokenIfNeeded refreshEnvExpiring =
        (some { accessToken := row2.access_token, refreshToken := row2.refresh_token,
                expiryDate := row2.expiry_date }, some row2) ∧
      row2.access_token = refreshedCreds.access_token ∧
      row2.expiry_date = refreshedCreds.expiry_date ∧
      row2.refresh_token
        = (match refreshedCreds.refresh_token with | some r => some r | none => some "rt")) ∧
    refreshTokenIfNeeded refreshEnvRejected = (none, some expiringRow) :=
  ⟨refreshTokenIfNeeded_contract.1 refreshDisconnected rfl,
   refreshTokenIfNeeded_contract.2.1 refreshEnvExpiring expiringRow 100 "rt" refreshedCreds
     rfl rfl (by decide) rfl rfl rfl,
   refreshTokenIfNeeded_contract.2.2 refreshEnvRejected expiringRow 100
     rfl rfl (by decide) (Or.inr rfl)⟩

/-- Claim C10: when the `limit` query parameter is absent, non-numeric, or
parses to 0, the upcoming-todos handler uses the default limit 2: it returns
the first two of the caller's non-completed todos with a due date at or
after `now`, in ascending due-date order. -/
theorem getUpcomingTodos_default_limit
    (s : Store) (uid now : Nat) (q : Option String)
    (hq : q = none ∨ (∃ str, q = some str ∧ parseIntJS str = none) ∨
          (∃ str, q = some str ∧ parseIntJS str = some 0)) :
    ∃ L : List Todo,
      L.Perm (s.todos.filter (upcomingFilter uid now)) ∧
      L.Sorted (fun a b => dueKey a ≤ dueKey b) ∧
      getUpcomingTodos s uid q now
        = ⟨200, .todos ((L.take 2).map (fun t => formatTodo t t.calendar_event_id))⟩ := by
  haveI hTot : IsTotal Todo (fun a b => dueKey a ≤ dueKey b) := ⟨fun a b => Nat.le_total _ _⟩
  haveI hTr : IsTrans Todo (fun a b => dueKey a ≤ dueKey b) := ⟨fun a b c => Nat.le_trans⟩
  have hlim : limitOf q = 2 := by
    rcases hq with rfl | ⟨str, rfl, h⟩ | ⟨str, rfl, h⟩
    · rfl
    · simp [limitOf, h]
    · simp [limitOf, h]
  refine ⟨List.insertionSort (fun a b => dueKey a ≤ dueKey b)
      (s.todos.filter (upcomingFilter uid now)),
    List.perm_insertionSort _ _, List.sorted_insertionSort _ _, ?_⟩
  unfold getUpcomingTodos
  rw [hlim]
  rfl

/-- Witness for `getUpcomingTodos_default_limit` with the parameter absent. -/
theorem getUpcomingTodos_default_limit_witness :
    ∃ L : List Todo,
      L.Perm (storeOnePending.todos.filter (upcomingFilter 1 50)) ∧
      L.Sorted (fun a b => dueKey a ≤ dueKey b) ∧
      getUpcomingTodos storeOnePending 1 none 50
        = ⟨200, .todos ((L.take 2).map (fun t => formatTodo t t.calendar_event_id))⟩ :=
  getUpcomingTodos_default_limit storeOnePending 1 50 none (Or.inl rfl)

/-- Claim C5: creating a todo with a due date while the calendar is
connected (producing a link), then updating it to clear the due date (with
the gateway reporting success), leaves the stored todo with
`calendar_event_id = null`, and exactly one `deleteEvent` call — for the
linked event id — has been issued across the two requests. -/
theorem create_then_clear_due_deletes_event_once
    (s : Store) (env1 env2 : GatewayEnv) (uid : Nat) (body : CreateBody)
    (ti : String) (due : Nat) (eid : String) (td1 td2 : TokenData)
    (hti : body.title = some ti) (htrim : jsTrim ti ≠ "")
    (hdue : body.dueDate = some due)
    (hconn1 : (refreshTokenIfNeeded env1.refresh).fst = some td1)
    (hins : env1.insertResult = some eid)
    (hconn2 : (refreshTokenIfNeeded env2.refresh).fst = some td2)
    (hdel : env2.deleteOk = true)
    (hwf : ∀ t ∈ s.todos, t.id < s.nextId) :
    (∀ t ∈ (updateTodo (createTodo s env1 uid body).fst env2 uid s.nextId clearDueBody).fst.todos,
      t.id = s.nextId → t.calendar_event_id = none ∧ t.due_date = none) ∧
    (∃ t ∈ (updateTodo (createTodo s env1 uid body).fst env2 uid s.nextId clearDueBody).fst.todos,
      t.id = s.nextId) ∧
    ((createTodo s env1 uid body).snd.fst
        ++ (updateTodo (createTodo s env1 uid body).fst env2 uid s.nextId clearDueBody).snd.fst).filter
      isDeleteCall = [GCall.deleteEv eid] := by
  have hsucc := createCalendarEventHelper_success env1 (jsTrim ti) due (due + oneHourMs)
    td1 eid hconn1 hins
  have hdsucc := deleteCalendarEventHelper_success env2 eid td2 hconn2 hdel
  set data : Todo := Todo.mk s.nextId uid (jsTrim ti) body.description
    (jsOrStr body.priority "medium") (jsOrStr body.status "pending")
    (some due) none none with hdata
  have hr1store : (createTodo s env1 uid body).fst
      = { todos := updateTodoRow (s.todos ++ [data]) s.nextId
            (fun t => { t with calendar_event_id := some eid }),
          nextId := s.nextId + 1 } := by
    unfold createTodo
    simp only [hti, hdue, if_neg htrim, hsucc]
    rfl
  have hr1trace : (createTodo s env1 uid body).snd.fst
      = [GCall.createEv (jsTrim ti) due (due + oneHourMs)] := by
    unfold createTodo
    simp only [hti, hdue, if_neg htrim, hsucc, createCalendarEventHelper_calls]
    rfl
  set data2 : Todo := Todo.mk s.nextId uid (jsTrim ti) body.description
    (jsOrStr body.priority "medium") (jsOrStr body.status "pending")
    (some due) (some eid) none with hdata2
  have hfind2 : ((createTodo s env1 uid body).fst.todos).find? (fun t => t.id == s.nextId)
      = some data2 := by
    rw [hr1store]
    exact find?_updateTodoRow_append s.todos data s.nextId _ hwf rfl rfl
  have hr2store : (updateTodo (createTodo s env1 uid body).fst env2 uid s.nextId clearDueBody).fst
      = { todos := updateTodoRow
            (updateTodoRow (createTodo s env1 uid body).fst.todos s.nextId
              (applyPatch clearDueBody))
            s.nextId (fun t => { t with calendar_event_id := none })
          nextId := s.nextId + 1 } := by
    unfold updateTodo
    rw [hfind2]
    simp only [hdata2, ne_eq, not_true_eq_false, if_neg, hasUpdateFields, titleChanged,
      dueDateChanged, clearDueBody, applyPatch, hdsucc, Option.isSome_some, Option.isSome_none,
      Bool.or_true, Bool.false_or, Bool.not_false, if_true, decide_not]
    rw [hr1store]
    rfl
  have hr2trace :
      (updateTodo (createTodo s env1 uid body).fst env2 uid s.nextId clearDueBody).snd.fst
        = [GCall.deleteEv eid] := by
    unfold updateTodo
    rw [hfind2]
    simp only [hdata2, ne_eq, not_true_eq_false, if_neg, hasUpdateFields, titleChanged,
      dueDateChanged, clearDueBody, applyPatch, hdsucc, Option.isSome_some, Option.isSome_none,
      Bool.or_true, Bool.false_or, Bool.not_false, if_true, decide_not,
      deleteCalendarEventHelper_calls]
    rfl
  refine ⟨?_, ?_, ?_⟩
  · intro t ht htid
    rw [hr2store] at ht
    obtain ⟨v, hv, rfl⟩ := mem_updateTodoRow _ _ _ _ ht
    obtain ⟨w, hw, rfl⟩ := mem_updateTodoRow _ _ _ _ hv
    rw [hr1store] at hw
    obtain ⟨u, hu, rfl⟩ := mem_updateTodoRow _ _ _ _ hw
    rcases List.mem_append.mp hu with hus | hud
    · have hne : u.id ≠ s.nextId := Nat.ne_of_lt (hwf u hus)
      simp only [if_neg hne] at htid
      exact absurd htid hne
    · have : u = data := List.mem_singleton.mp hud
      subst this
      constructor <;> simp [hdata, applyPatch, clearDueBody]
  · rw [hr2store, hr1store]
    refine ⟨_, List.mem_map.mpr ⟨_, List.mem_map.mpr ⟨_, List.mem_map.mpr
      ⟨data, List.mem_append_right _ (List.mem_singleton.mpr rfl), rfl⟩, rfl⟩, rfl⟩, ?_⟩
    simp [hdata, applyPatch, clearDueBody]
  · rw [hr1trace, hr2trace]
    rfl

/-- Witness for `create_then_clear_due_deletes_event_once` at the concrete
"Write report" scenario against the connected gateway. -/
theorem create_then_clear_due_deletes_event_once_witness :
    (∀ t ∈ (updateTodo (createTodo store0 gwOk 7 writeReportBody).fst gwOk 7 store0.nextId
        clearDueBody).fst.todos,
      t.id = store0.nextId → t.calendar_event_id = none ∧ t.due_date = none) ∧
    (∃ t ∈ (updateTodo (createTodo store0 gwOk 7 writeReportBody).fst gwOk 7 store0.nextId
        clearDueBody).fst.todos,
      t.id = store0.nextId) ∧
    ((createTodo store0 gwOk 7 writeReportBody).snd.fst
        ++ (updateTodo (createTodo store0 gwOk 7 writeReportBody).fst gwOk 7 store0.nextId
            clearDueBody).snd.fst).filter
      isDeleteCall = [GCall.deleteEv "evt-42"] :=
  create_then_clear_due_deletes_event_once store0 gwOk gwOk 7 writeReportBody
    "Write report" (epochMillisUTC 2025 6 1 9 0 0) "evt-42"
    { accessToken := some "at", refreshToken := some "rt", expiryDate := some 999999999999999 }
    { accessToken := some "at", refreshToken := some "rt", expiryDate := some 999999999999999 }
    rfl (by decide) rfl (by decide) rfl (by decide) rfl (by decide)

/-- An `updateTodoRow` with an id-preserving function leaves the id list of
the store unchanged. -/
theorem ids_updateTodoRow (todos : List Todo) (nid : Nat) (f : Todo → Todo)
    (hf : ∀ t, (f t).id = t.id) :
    (updateTodoRow todos nid f).map (fun t => t.id) = todos.map (fun t => t.id) := by
  unfold updateTodoRow
  rw [List.map_map]
  apply List.map_congr_left
  intro t _
  by_cases h : t.id = nid <;> simp [h, hf]

/-- A row-wise map that keeps or clears each link yields a sublist of the
link list. -/
theorem links_map_sublist (todos : List Todo) (g : Todo → Todo)
    (h : ∀ t ∈ todos, (g t).calendar_event_id = t.calendar_event_id
      ∨ (g t).calendar_event_id = none) :
    List.Sublist (links (todos.map g)) (links todos) := by
  induction todos with
  | nil => simp [links]
  | cons t ts ih =>
    have hts := fun u hu => h u (List.mem_cons_of_mem _ hu)
    have ht := h t (List.mem_cons_self _ _)
    simp only [links, List.map_cons, List.filterMap_cons] at *
    rcases ht with heq | hnone
    · rw [heq]
      cases t.calendar_event_id with
      | none => exact ih hts
      | some l => exact (ih hts).cons₂ l
    · rw [hnone]
      cases t.calendar_event_id with
      | none => exact ih hts
      | some l => exact (ih hts).cons l

/-- A link present after a row-wise map comes from some original row. -/
theorem mem_links_map (todos : List Todo) (g : Todo → Todo) (x : String)
    (hx : x ∈ links (todos.map g)) :
    ∃ t ∈ todos, (g t).calendar_event_id = some x := by
  simp only [links, List.mem_filterMap, List.mem_map] at hx
  obtain ⟨u, ⟨t, ht, rfl⟩, he⟩ := hx
  exact ⟨t, ht, he⟩

/-- A link present after re-pointing one row is an old link or the new
value. -/
theorem mem_links_updateTodoRow_setLink (todos : List Todo) (nid : Nat) (v : Option String)
    (x : String)
    (hx : x ∈ links (updateTodoRow todos nid (fun t => { t with calendar_event_id := v }))) :
    x ∈ links todos ∨ v = some x := by
  obtain ⟨t, ht, he⟩ := mem_links_map todos _ x hx
  by_cases h : t.id = nid
  · rw [if_pos h] at he
    exact Or.inr he
  · rw [if_neg h] at he
    exact Or.inl (List.mem_filterMap.mpr ⟨t, ht, he⟩)

/-- Re-pointing one row to a fresh (or null) event id preserves link
uniqueness, provided row ids are distinct. -/
theorem nodup_links_updateTodoRow_setLink (todos : List Todo) (nid : Nat) (v : Option String)
    (hids : (todos.map (fun t => t.id)).Nodup)
    (hnd : (links todos).Nodup)
    (hfresh : ∀ e, v = some e → e ∉ links todos) :
    (links (updateTodoRow todos nid (fun t => { t with calendar_event_id := v }))).Nodup := by
  induction todos with
  | nil => simp [links, updateTodoRow]
  | cons t ts ih =>
    simp only [List.map_cons, List.nodup_cons] at hids
    have hlinksub : List.Sublist (links ts) (links (t :: ts)) := by
      simpa only [links] using (List.sublist_cons_self t ts).filterMap _
    have hndts : (links ts).Nodup := hnd.sublist hlinksub
    have hfreshts : ∀ e, v = some e → e ∉ links ts :=
      fun e hv hm => hfresh e hv (hlinksub.subset hm)
    by_cases h : t.id = nid
    · -- the head is rewritten; the tail is untouched because ids are distinct
      have htail : updateTodoRow ts nid (fun u => { u with calendar_event_id := v }) = ts := by
        unfold updateTodoRow
        have hid : ∀ u ∈ ts,
            (if u.id = nid then ({ u with calendar_event_id := v } : Todo) else u) = id u := by
          intro u hu
          have hne : u.id ≠ nid := by
            intro he
            exact hids.1 (List.mem_map.mpr ⟨u, hu, by rw [he, h]⟩)
          simp [hne]
        rw [List.map_congr_left hid, List.map_id]
      unfold updateTodoRow
      simp only [List.map_cons]
      rw [if_pos h]
      have : List.map (fun u => if u.id = nid then ({ u with calendar_event_id := v } : Todo) else u) ts = ts := htail
      rw [this]
      simp only [links, List.filterMap_cons]
      cases v with
      | none => exact hndts
      | some e => exact List.nodup_cons.mpr ⟨fun hm => hfreshts e rfl hm, hndts⟩
    · unfold updateTodoRow
      simp only [List.map_cons]
      rw [if_neg h]
      simp only [links, List.filterMap_cons]
      cases hl : t.calendar_event_id with
      | none => exact ih hids.2 hndts hfreshts
      | some l =>
        refine List.nodup_cons.mpr ⟨?_, ih hids.2 hndts hfreshts⟩
        intro hm
        rcases mem_links_updateTodoRow_setLink ts nid v l hm with hmem | hv
        · have hcons : links (t :: ts) = l :: links ts := by
            simp [links, List.filterMap_cons, hl]
          rw [hcons] at hnd
          exact (List.nodup_cons.mp hnd).1 hmem
        · exact hfresh l hv (by simp [links, List.filterMap_cons, hl])

/-- Appending a row carrying the fresh id preserves well-formedness. -/
theorem storeWF_append (s : Store) (d : Todo) (hd : d.id = s.nextId) (hwf : StoreWF s) :
    StoreWF ⟨s.todos ++ [d], s.nextId + 1⟩ := by
  obtain ⟨hnd, hlt⟩ := hwf
  constructor
  · rw [List.map_append, List.nodup_append]
    refine ⟨hnd, by simp, ?_⟩
    intro x hx hx2
    simp only [List.map_cons, List.map_nil, List.mem_singleton] at hx2
    obtain ⟨t, ht, rfl⟩ := List.mem_map.mp hx
    have hlt2 : t.id < s.nextId := hlt t ht
    rw [hx2, hd] at hlt2
    exact Nat.lt_irrefl _ hlt2
  · intro t ht
    rcases List.mem_append.mp ht with h1 | h1
    · exact Nat.lt_succ_of_lt (hlt t h1)
    · rw [List.mem_singleton.mp h1, hd]
      exact Nat.lt_succ_self _

/-- An id-preserving row update preserves well-formedness. -/
theorem storeWF_updateTodoRow (s : Store) (nid : Nat) (f : Todo → Todo)
    (hf : ∀ t, (f t).id = t.id) (hwf : StoreWF s) :
    StoreWF ⟨updateTodoRow s.todos nid f, s.nextId⟩ := by
  obtain ⟨hnd, hlt⟩ := hwf
  constructor
  · rw [ids_updateTodoRow _ _ _ hf]; exact hnd
  · intro t ht
    obtain ⟨u, hu, rfl⟩ := mem_updateTodoRow _ _ _ _ ht
    have : (if u.id = nid then f u else u).id = u.id := by
      by_cases h : u.id = nid <;> simp [h, hf]
    rw [this]
    exact hlt u hu

/-- Deleting rows preserves well-formedness. -/
theorem storeWF_filter (s : Store) (p : Todo → Bool) (hwf : StoreWF s) :
    StoreWF ⟨s.todos.filter p, s.nextId⟩ := by
  obtain ⟨hnd, hlt⟩ := hwf
  exact ⟨hnd.sublist ((List.filter_sublist s.todos).map _),
    fun t ht => hlt t (List.mem_of_mem_filter ht)⟩

/-- A link-preserving row update preserves link uniqueness. -/
theorem uniqueLinks_updateTodoRow_of_link_preserving (todos : List Todo) (nid : Nat)
    (f : Todo → Todo) (hf : ∀ t, (f t).calendar_event_id = t.calendar_event_id)
    (hnd : (links todos).Nodup) :
    (links (updateTodoRow todos nid f)).Nodup := by
  refine List.Nodup.sublist (links_map_sublist todos _ ?_) hnd
  intro t _
  by_cases h : t.id = nid <;> simp [h, hf]

/-- Deleting rows preserves link uniqueness. -/
theorem uniqueLinks_filter (todos : List Todo) (p : Todo → Bool)
    (hnd : (links todos).Nodup) :
    (links (todos.filter p)).Nodup :=
  hnd.sublist ((List.filter_sublist todos).filterMap _)

/-- The event id the create helper hands back is null or the remote
insert's id. -/
theorem createCalendarEventHelper_eventId (env : GatewayEnv) (title : String)
    (startMs endMs : Nat) :
    (createCalendarEventHelper env title startMs endMs).fst.eventId = none ∨
    (createCalendarEventHelper env title startMs endMs).fst.eventId = env.insertResult := by
  unfold createCalendarEventHelper
  cases (refreshTokenIfNeeded env.refresh).fst with
  | none => exact Or.inl rfl
  | some _ =>
    cases h : env.insertResult with
    | none => exact Or.inl rfl
    | some id => exact Or.inr rfl

/-- Appending an unlinked row leaves the link list unchanged. -/
theorem links_append_unlinked (todos : List Todo) (d : Todo)
    (hd : d.calendar_event_id = none) :
    links (todos ++ [d]) = links todos := by
  simp [links, List.filterMap_append, List.filterMap_cons, hd]

/-- `createTodo` preserves well-formedness and link uniqueness when the
gateway only hands out fresh event ids. -/
theorem createTodo_step (s : Store) (env : GatewayEnv) (uid : Nat) (body : CreateBody)
    (hwf : StoreWF s) (hu : UniqueLinks s)
    (hfresh : ∀ e, env.insertResult = some e → e ∉ links s.todos) :
    StoreWF (createTodo s env uid body).fst ∧ UniqueLinks (createTodo s env uid body).fst := by
  unfold createTodo
  cases hbt : body.title with
  | none => exact ⟨hwf, hu⟩
  | some rawTitle =>
    simp only []
    by_cases htr : jsTrim rawTitle = ""
    · rw [if_pos htr]; exact ⟨hwf, hu⟩
    · rw [if_neg htr]
      set data : Todo := Todo.mk s.nextId uid (jsTrim rawTitle) body.description
        (jsOrStr body.priority "medium") (jsOrStr body.status "pending")
        body.dueDate none none with hdata
      have hwf1 : StoreWF ⟨s.todos ++ [data], s.nextId + 1⟩ := storeWF_append s data rfl hwf
      have hu1 : UniqueLinks ⟨s.todos ++ [data], s.nextId + 1⟩ := by
        unfold UniqueLinks
        rw [links_append_unlinked s.todos data rfl]
        exact hu
      cases hbd : body.dueDate with
      | none => exact ⟨hwf1, hu1⟩
      | some due =>
        cases hsucc : (createCalendarEventHelper env (jsTrim rawTitle) due
            (due + oneHourMs)).fst.success
        · simp only [hsucc, Bool.false_eq_true, if_false]
          exact ⟨hwf1, hu1⟩
        · simp only [hsucc, if_true]
          constructor
          · exact storeWF_updateTodoRow ⟨s.todos ++ [data], s.nextId + 1⟩ s.nextId _
              (fun t => rfl) hwf1
          · unfold UniqueLinks
            apply nodup_links_updateTodoRow_setLink
            · exact hwf1.1
            · exact hu1
            · intro e he
              rcases createCalendarEventHelper_eventId env (jsTrim rawTitle) due
                  (due + oneHourMs) with hnone | hins
              · rw [hnone] at he; exact absurd he (by simp)
              · rw [hins] at he
                rw [links_append_unlinked s.todos data rfl]
                exact hfresh e he

/-- `updateTodo` preserves well-formedness and link uniqueness when the
gateway only hands out fresh event ids. -/
theorem updateTodo_step (s : Store) (env : GatewayEnv) (uid todoId : Nat) (body : UpdateBody)
    (hwf : StoreWF s) (hu : UniqueLinks s)
    (hfresh : ∀ e, env.insertResult = some e → e ∉ links s.todos) :
    StoreWF (updateTodo s env uid todoId body).fst ∧
    UniqueLinks (updateTodo s env uid todoId body).fst := by
  unfold updateTodo
  cases hfind : s.todos.find? (fun t => t.id == todoId) with
  | none => exact ⟨hwf, hu⟩
  | some ex =>
    simp only []
    by_cases hown : ex.user_id ≠ uid
    · rw [if_pos hown]; exact ⟨hwf, hu⟩
    · rw [if_neg hown]
      cases hhf : hasUpdateFields body
      · simp only [Bool.not_false, if_true]; exact ⟨hwf, hu⟩
      · simp only [Bool.not_true, Bool.false_eq_true, if_false]
        have hwf1 : StoreWF ⟨updateTodoRow s.todos todoId (applyPatch body), s.nextId⟩ :=
          storeWF_updateTodoRow s todoId _ (fun t => rfl) hwf
        have hu1 : UniqueLinks ⟨updateTodoRow s.todos todoId (applyPatch body), s.nextId⟩ :=
          uniqueLinks_updateTodoRow_of_link_preserving _ _ _ (fun t => rfl) hu
        have hids1 : (updateTodoRow s.todos todoId (applyPatch body)).map (fun t => t.id)
            = s.todos.map (fun t => t.id) := ids_updateTodoRow _ _ _ (fun t => rfl)
        have hsub1 : List.Sublist (links (updateTodoRow s.todos todoId (applyPatch body)))
            (links s.todos) :=
          links_map_sublist _ _ (fun t _ => by
            by_cases h : t.id = todoId
            · rw [if_pos h]; exact Or.inl rfl
            · rw [if_neg h]; exact Or.inl rfl)
        by_cases hch : (titleChanged body ex || dueDateChanged body ex) = true
        · rw [if_pos hch]
          cases hlink : ex.calendar_event_id with
          | some eid =>
            cases hdue : (applyPatch body ex).due_date with
            | some due => exact ⟨hwf1, hu1⟩
            | none =>
              cases hds : (deleteCalendarEventHelper env eid).fst.success
              · simp only [hds, Bool.false_eq_true, if_false]; exact ⟨hwf1, hu1⟩
              · simp only [hds, if_true]
                refine ⟨storeWF_updateTodoRow ⟨_, _⟩ todoId _ (fun t => rfl) hwf1, ?_⟩
                unfold UniqueLinks
                apply nodup_links_updateTodoRow_setLink
                · rw [hids1]; exact hwf.1
                · exact hu1
                · intro e he; exact absurd he (by simp)
          | none =>
            cases hdue : (applyPatch body ex).due_date with
            | some due =>
              cases hcs : (createCalendarEventHelper env (applyPatch body ex).title due
                  (due + oneHourMs)).fst.success
              · simp only [hcs, Bool.false_eq_true, if_false]; exact ⟨hwf1, hu1⟩
              · simp only [hcs, if_true]
                refine ⟨storeWF_updateTodoRow ⟨_, _⟩ todoId _ (fun t => rfl) hwf1, ?_⟩
                unfold UniqueLinks
                apply nodup_links_updateTodoRow_setLink
                · rw [hids1]; exact hwf.1
                · exact hu1
                · intro e he
                  rcases createCalendarEventHelper_eventId env (applyPatch body ex).title due
                      (due + oneHourMs) with hnone | hins
                  · rw [hnone] at he; exact absurd he (by simp)
                  · rw [hins] at he
                    exact fun hm => hfresh e he (hsub1.subset hm)
            | none => exact ⟨hwf1, hu1⟩
        · rw [if_neg hch]
          exact ⟨hwf1, hu1⟩

/-- `deleteTodo` preserves well-formedness and link uniqueness. -/
theorem deleteTodo_step (s : Store) (env : GatewayEnv) (uid todoId : Nat)
    (hwf : StoreWF s) (hu : UniqueLinks s) :
    StoreWF (deleteTodo s env uid todoId).fst ∧ UniqueLinks (deleteTodo s env uid todoId).fst := by
  unfold deleteTodo
  cases hfind : s.todos.find? (fun t => t.id == todoId) with
  | none => exact ⟨hwf, hu⟩
  | some ex =>
    simp only []
    by_cases hown : ex.user_id ≠ uid
    · rw [if_pos hown]; exact ⟨hwf, hu⟩
    · rw [if_neg hown]
      exact ⟨storeWF_filter s _ hwf, uniqueLinks_filter s.todos _ hu⟩

/-- `completeTodo` preserves well-formedness and link uniqueness. -/
theorem completeTodo_step (s : Store) (uid todoId now : Nat)
    (hwf : StoreWF s) (hu : UniqueLinks s) :
    StoreWF (completeTodo s uid todoId now).fst ∧
    UniqueLinks (completeTodo s uid todoId now).fst := by
  unfold completeTodo
  cases hfind : s.todos.find? (fun t => t.id == todoId) with
  | none => exact ⟨hwf, hu⟩
  | some ex =>
    simp only []
    by_cases hown : ex.user_id ≠ uid
    · rw [if_pos hown]; exact ⟨hwf, hu⟩
    · rw [if_neg hown]
      exact ⟨storeWF_updateTodoRow s todoId _ (fun t => rfl) hwf,
        uniqueLinks_updateTodoRow_of_link_preserving _ _ _ (fun t => rfl) hu⟩

/-- `linkTodoToCalendar` preserves well-formedness and link uniqueness when
the supplied event id is fresh (the endpoint itself checks nothing — see the
counterexample below). -/
theorem linkTodoToCalendar_step (s : Store) (uid todoId : Nat) (eventId : Option String)
    (hwf : StoreWF s) (hu : UniqueLinks s)
    (hfresh : ∀ e, eventId = some e → e ∉ links s.todos) :
    StoreWF (linkTodoToCalendar s uid todoId eventId).fst ∧
    UniqueLinks (linkTodoToCalendar s uid todoId eventId).fst := by
  unfold linkTodoToCalendar
  cases heid : eventId with
  | none => exact ⟨hwf, hu⟩
  | some eid =>
    simp only []
    by_cases hblank : eid = ""
    · rw [if_pos hblank]; exact ⟨hwf, hu⟩
    · rw [if_neg hblank]
      cases hfind : s.todos.find? (fun t => t.id == todoId) with
      | none => exact ⟨hwf, hu⟩
      | some ex =>
        simp only []
        by_cases hown : ex.user_id ≠ uid
        · rw [if_pos hown]; exact ⟨hwf, hu⟩
        · rw [if_neg hown]
          refine ⟨storeWF_updateTodoRow s todoId _ (fun t => rfl) hwf, ?_⟩
          unfold UniqueLinks
          apply nodup_links_updateTodoRow_setLink
          · exact hwf.1
          · exact hu
          · intro e he
            rw [← Option.some_inj.mp he]
            exact hfresh eid (by rw [heid])

/-- `addEvent` preserves well-formedness and link uniqueness when the remote
event id is fresh. -/
theorem addEvent_step (s : Store) (env : GatewayEnv) (uid : Nat) (title : String)
    (startMs endMs : Nat)
    (hwf : StoreWF s) (hu : UniqueLinks s)
    (hfresh : ∀ e, env.insertResult = some e → e ∉ links s.todos) :
    StoreWF (addEvent s env uid title startMs endMs).fst ∧
    UniqueLinks (addEvent s env uid title startMs endMs).fst := by
  unfold addEvent
  cases hconn : (refreshTokenIfNeeded env.refresh).fst with
  | none => exact ⟨hwf, hu⟩
  | some td =>
    simp only []
    cases hins : env.insertResult with
    | none => exact ⟨hwf, hu⟩
    | some eid =>
      simp only []
      refine ⟨storeWF_append s _ rfl hwf, ?_⟩
      unfold UniqueLinks
      have : links (s.todos ++ [Todo.mk s.nextId uid title none "medium" "pending"
          (some startMs) (some eid) none]) = links s.todos ++ [eid] := by
        simp [links, List.filterMap_append, List.filterMap_cons]
      rw [this, List.nodup_append]
      exact ⟨hu, List.nodup_singleton _, fun x hx hx2 =>
        (List.mem_singleton.mp hx2 ▸ hfresh eid hins) (List.mem_singleton.mp hx2 ▸ hx)⟩

/-- `updateEvent` preserves well-formedness and link uniqueness. -/
theorem updateEvent_step (s : Store) (env : GatewayEnv) (uid : Nat) (eventId title : String)
    (startMs endMs : Nat)
    (hwf : StoreWF s) (hu : UniqueLinks s) :
    StoreWF (updateEvent s env uid eventId title startMs endMs).fst ∧
    UniqueLinks (updateEvent s env uid eventId title startMs endMs).fst := by
  unfold updateEvent
  cases hconn : (refreshTokenIfNeeded env.refresh).fst with
  | none => exact ⟨hwf, hu⟩
  | some td =>
    simp only []
    cases hok : env.updateOk
    · simp only [hok, Bool.not_false, if_true]; exact ⟨hwf, hu⟩
    · simp only [hok, Bool.not_true, Bool.false_eq_true, if_false]
      cases hfl : findLinkedSingle s.todos uid eventId with
      | none => exact ⟨hwf, hu⟩
      | some linkedTodo =>
        simp only []
        exact ⟨storeWF_updateTodoRow s linkedTodo.id _ (fun t => rfl) hwf,
          uniqueLinks_updateTodoRow_of_link_preserving _ _ _ (fun t => rfl) hu⟩

/-- `deleteEvent` preserves well-formedness and link uniqueness. -/
theorem deleteEvent_step (s : Store) (env : GatewayEnv) (uid : Nat) (eventId : String)
    (hwf : StoreWF s) (hu : UniqueLinks s) :
    StoreWF (deleteEvent s env uid eventId).fst ∧
    UniqueLinks (deleteEvent s env uid eventId).fst := by
  unfold deleteEvent
  cases hconn : (refreshTokenIfNeeded env.refresh).fst with
  | none => exact ⟨hwf, hu⟩
  | some td =>
    simp only []
    cases hok : env.deleteOk
    · simp only [hok, Bool.not_false, if_true]; exact ⟨hwf, hu⟩
    · simp only [hok, Bool.not_true, Bool.false_eq_true, if_false]
      cases hfl : findLinkedSingle s.todos uid eventId with
      | none => exact ⟨hwf, hu⟩
      | some linkedTodo =>
        simp only []
        exact ⟨storeWF_filter s _ hwf, uniqueLinks_filter s.todos _ hu⟩

/-- One operation of the combined interface preserves well-formedness and
link uniqueness under its freshness side condition. -/
theorem runOp_step (s : Store) (op : Op)
    (hwf : StoreWF s) (hu : UniqueLinks s) (hf : OpFresh s op) :
    StoreWF (runOp s op) ∧ UniqueLinks (runOp s op) := by
  cases op with
  | opCreate uid env body => exact createTodo_step s env uid body hwf hu hf
  | opUpdate uid env todoId body => exact updateTodo_step s env uid todoId body hwf hu hf
  | opDelete uid env todoId => exact deleteTodo_step s env uid todoId hwf hu
  | opComplete uid todoId now => exact completeTodo_step s uid todoId now hwf hu
  | opLink uid todoId eventId => exact linkTodoToCalendar_step s uid todoId eventId hwf hu hf
  | opAddEvent uid env title startMs endMs =>
    exact addEvent_step s env uid title startMs endMs hwf hu hf
  | opUpdateEvent uid env eventId title startMs endMs =>
    exact updateEvent_step s env uid eventId title startMs endMs hwf hu
  | opDeleteEvent uid env eventId => exact deleteEvent_step s env uid eventId hwf hu

/-- Claim C2 (amended): starting from a well-formed store with unique
links, after any sequence of todo and calendar operations in which every
event id introduced (returned by the gateway inserts or passed to
`linkTodoToCalendar`) is not already linked, at most one todo holds any
given non-null `calendar_event_id`.  As literally stated the claim is
false: `linkTodoToCalendar` enforces nothing (see the counterexample). -/
theorem link_uniqueness_preserved (ops : List Op) (s : Store)
    (hwf : StoreWF s) (hu : UniqueLinks s) (hfresh : FreshSeq s ops) :
    UniqueLinks (runOps s ops) := by
  induction ops generalizing s with
  | nil => exact hu
  | cons op ops ih =>
    obtain ⟨hf, hrest⟩ := hfresh
    obtain ⟨hwf2, hu2⟩ := runOp_step s op hwf hu hf
    exact ih (runOp s op) hwf2 hu2 hrest

/-- Counterexample to claim C2 as stated: linking two todos to the same
event id through `linkTodoToCalendar` leaves two rows with
`calendar_event_id = "E"` — the endpoint performs no uniqueness check, so
link uniqueness does not hold after arbitrary operation sequences. -/
theorem linkTodoToCalendar_breaks_uniqueness :
    ¬ UniqueLinks (runOps store0
      [Op.opCreate 1 gwDown (plainCreateBody "a"), Op.opCreate 1 gwDown (plainCreateBody "b"),
       Op.opLink 1 0 (some "E"), Op.opLink 1 1 (some "E")]) := by
  decide

/-- Witness for `link_uniqueness_preserved`: a concrete create-and-link
sequence with fresh ids keeps links unique. -/
theorem link_uniqueness_preserved_witness :
    UniqueLinks (runOps store0
      [Op.opCreate 1 gwOk writeReportBody, Op.opLink 1 0 (some "E2")]) :=
  link_uniqueness_preserved _ store0 (by decide) (by decide)
    (by
      refine ⟨?_, ?_, trivial⟩
      · intro e he
        simp [links, store0]
      · intro e he
        injection he with h
        subst h
        decide)

end Selfish
